import Mathlib

/-!
Shallow embedding of the appointment booking core of the
doctor-appointment backend (`src/services/appointmentService.js`,
`src/models/Appointment.js`, `src/models/Doctor.js`,
`src/middleware/validation.js`).

Conventions of the embedding:
* MongoDB ObjectIds are `Nat`.
* A calendar date (the `date` field, date-only) is a `Nat` counting days
  from the Unix epoch; `dayOfWeek` reproduces
  `new Date(d).toLocaleDateString('en-US', \x7b weekday: 'long' \x7d)`
  (epoch day 0, 1970-01-01, is a Thursday).
* An `HH:MM` time string is represented by its two parsed numeric
  components (`TimeOfDay`); `parseTime` is the service's
  `parseTime(timeString)` (`hours * 60 + minutes`).
* The appointment collection is a `List Appointment`; a mongoose
  `findById` / `findOne` is `List.find?`, and saving a mutated document
  replaces the entry with the same `_id`.
* `now` is an `Int` counting minutes (the JS code compares millisecond
  differences; at the minute granularity of all stored times the
  comparisons coincide).
* Each distinct error message thrown by the service is one constructor of
  `ApptError`.
-/

/-- The `status` enum of the appointment schema:
`['pending', 'confirmed', 'cancelled', 'completed']`. -/
inductive Status where
  | pending
  | confirmed
  | cancelled
  | completed
deriving DecidableEq, Repr

/-- The `day` enum of the availability sub-schema
(`['Monday', ..., 'Sunday']` in `src/models/Doctor.js`). -/
inductive Weekday where
  | Sunday
  | Monday
  | Tuesday
  | Wednesday
  | Thursday
  | Friday
  | Saturday
deriving DecidableEq, Repr

/-- Requester role as checked by the service (`userRole !== 'admin'`). -/
inductive Role where
  | user
  | admin
deriving DecidableEq, Repr

/-- An `HH:MM` time string, represented by its parsed components. -/
structure TimeOfDay where
  hours : Nat
  minutes : Nat
deriving DecidableEq, Repr

/-- `parseTime(timeString)` from `appointmentService.js`:
`const [hours, minutes] = timeString.split(':').map(Number);
return hours * 60 + minutes;`. -/
def parseTime (t : TimeOfDay) : Nat :=
  t.hours * 60 + t.minutes

/-- `new Date(epochDay).toLocaleDateString('en-US', ...)` for a date-only
value: epoch day 0 (1970-01-01) is a Thursday. -/
def dayOfWeek (epochDay : Nat) : Weekday :=
  match epochDay % 7 with
  | 0 => .Thursday
  | 1 => .Friday
  | 2 => .Saturday
  | 3 => .Sunday
  | 4 => .Monday
  | 5 => .Tuesday
  | _ => .Wednesday

/-- One entry of `doctor.availability` (`availabilitySchema` in
`src/models/Doctor.js`). -/
structure AvailabilitySlot where
  day : Weekday
  startTime : TimeOfDay
  endTime : TimeOfDay
deriving DecidableEq, Repr

/-- The fields of a `Doctor` document used by the appointment core. -/
structure Doctor where
  id : Nat
  isActive : Bool
  availability : List AvailabilitySlot
  consultationFee : Nat
deriving DecidableEq, Repr

/-- The fields of an `Appointment` document
(`src/models/Appointment.js`).  Timestamps are minutes as `Int`. -/
structure Appointment where
  id : Nat
  userId : Nat
  doctorId : Nat
  date : Nat
  time : TimeOfDay
  status : Status
  reason : String
  notes : Option String
  symptoms : List String
  consultationFee : Nat
  cancellationReason : Option String
  cancelledBy : Option String
  confirmedAt : Option Int
  cancelledAt : Option Int
  completedAt : Option Int
deriving DecidableEq, Repr

/-- `status: { $in: ['pending', 'confirmed'] }` — the statuses that
occupy a slot. -/
def isActiveStatus (s : Status) : Bool :=
  s == .pending || s == .confirmed

/-- One constructor per distinct error thrown by the appointment paths. -/
inductive ApptError where
  /-- `'Doctor not found'` -/
  | doctorNotFound
  /-- `'Doctor is not available'` (inactive doctor) -/
  | doctorNotAvailable
  /-- `'Doctor is not available at the requested time'` -/
  | doctorNotAvailableAtTime
  /-- `'Time slot is already booked'` -/
  | timeSlotAlreadyBooked
  /-- `'Appointment not found'` -/
  | appointmentNotFound
  /-- `'Access denied'` -/
  | accessDenied
  /-- `` `Cannot change status from X to Y` `` -/
  | cannotChangeStatus (fromStatus toStatus : Status)
  /-- `'Appointment cannot be cancelled (must be at least 24 hours ...)'` -/
  | cannotBeCancelled
  /-- `'Only pending or confirmed appointments can be cancelled'` -/
  | onlyActiveCanBeCancelled
  /-- populated doctor reference missing (JS would crash dereferencing) -/
  | doctorRecordMissing
  /-- `'New time slot is already booked'` -/
  | newTimeSlotAlreadyBooked
  /-- `'Doctor is not available at the new requested time'` -/
  | doctorNotAvailableAtNewTime
  /-- `'Only pending or confirmed appointments can be rescheduled'` -/
  | onlyActiveCanBeRescheduled
  /-- HTTP 400 `'Validation failed'` from `handleValidationErrors` -/
  | validationFailed
deriving DecidableEq, Repr

/-- The per-slot test inside the `doctor.availability.some(slot => ...)`
callback of `bookAppointment` / `rescheduleAppointment`:
`slot.day !== dayOfWeek ? false :
 requestedTime >= slotStart && requestedTime < slotEnd`. -/
def slotCovers (slot : AvailabilitySlot) (dow : Weekday) (time : TimeOfDay) : Bool :=
  if slot.day != dow then false
  else
    decide (parseTime slot.startTime ≤ parseTime time) &&
    decide (parseTime time < parseTime slot.endTime)

/-- `doctor.availability.some(slot => ...)` — the availability gate. -/
def isDoctorAvailable (doctor : Doctor) (date : Nat) (time : TimeOfDay) : Bool :=
  doctor.availability.any (fun slot => slotCovers slot (dayOfWeek date) time)

/-- `Appointment.hasConflict(doctorId, date, time, excludeId)` — the
`findOne` over active appointments at the triple, optionally excluding
one id (`_id: { $ne: excludeId }`). -/
def hasConflict (store : List Appointment) (doctorId date : Nat)
    (time : TimeOfDay) (excludeId : Option Nat) : Option Appointment :=
  store.find? (fun a =>
    a.doctorId == doctorId && a.date == date && a.time == time &&
    isActiveStatus a.status &&
    (match excludeId with
     | some e => a.id != e
     | none => true))

/-- The `appointmentDateTime` virtual: date combined with time, in
minutes. -/
def appointmentDateTime (a : Appointment) : Int :=
  (a.date : Int) * (24 * 60) + (parseTime a.time : Int)

/-- The `canBeCancelled` virtual:
`(status === 'pending' || status === 'confirmed') && hoursDifference >= 24`. -/
def canBeCancelled (a : Appointment) (now : Int) : Bool :=
  isActiveStatus a.status && decide (appointmentDateTime a - now ≥ 24 * 60)

/-- The `pre('save')` hook: when the status path was modified, set the
timestamp matching the new status, only if it is not already set. -/
def stampTimestamps (a : Appointment) (statusModified : Bool) (now : Int) : Appointment :=
  if statusModified then
    match a.status with
    | .confirmed => if a.confirmedAt.isNone then { a with confirmedAt := some now } else a
    | .cancelled => if a.cancelledAt.isNone then { a with cancelledAt := some now } else a
    | .completed => if a.completedAt.isNone then { a with completedAt := some now } else a
    | .pending => a
  else a

/-- Saving a mutated document: replace the entry with the same `_id`. -/
def saveReplace (store : List Appointment) (a : Appointment) : List Appointment :=
  store.map (fun b => if b.id == a.id then a else b)

/-- The `{ doctorId, date, time, reason, notes, symptoms }` booking
request body. -/
structure BookData where
  doctorId : Nat
  date : Nat
  time : TimeOfDay
  reason : String
  notes : Option String
  symptoms : Option (List String)
deriving Repr

/-- `AppointmentService.bookAppointment(userId, appointmentData)`.
`newId` stands for the fresh ObjectId minted for the inserted document. -/
def bookAppointment (doctors : List Doctor) (store : List Appointment)
    (newId userId : Nat) (d : BookData) :
    Except ApptError (Appointment × List Appointment) :=
  match doctors.find? (fun doc => doc.id == d.doctorId) with
  | none => .error .doctorNotFound
  | some doctor =>
    if !doctor.isActive then .error .doctorNotAvailable
    else if !(isDoctorAvailable doctor d.date d.time) then
      .error .doctorNotAvailableAtTime
    else if (hasConflict store d.doctorId d.date d.time none).isSome then
      .error .timeSlotAlreadyBooked
    else
      let appointment : Appointment :=
        { id := newId
          userId := userId
          doctorId := d.doctorId
          date := d.date
          time := d.time
          status := .pending
          reason := d.reason
          notes := d.notes
          symptoms := d.symptoms.getD []
          consultationFee := doctor.consultationFee
          cancellationReason := none
          cancelledBy := none
          confirmedAt := none
          cancelledAt := none
          completedAt := none }
      .ok (appointment, store ++ [appointment])

/-- `validTransitions[currentStatus]?.includes(newStatus) || false`. -/
def isValidStatusTransition (currentStatus newStatus : Status) : Bool :=
  let validTransitions : Status → List Status := fun s =>
    match s with
    | .pending => [.confirmed, .cancelled]
    | .confirmed => [.completed, .cancelled]
    | .cancelled => []
    | .completed => []
  (validTransitions currentStatus).contains newStatus

/-- The `{ status, cancellationReason, cancelledBy }` body of a status
update, after the enum check on `status`. -/
structure StatusData where
  status : Status
  cancellationReason : Option String
  cancelledBy : Option String
deriving Repr

/-- The field updates of `updateAppointmentStatus`:
`appointment.status = status`, and for `cancelled` also
`cancellationReason = cancellationReason; cancelledBy = cancelledBy || 'admin'`. -/
def applyStatusUpdate (appt : Appointment) (sd : StatusData) : Appointment :=
  let a1 := { appt with status := sd.status }
  if sd.status == .cancelled then
    { a1 with cancellationReason := sd.cancellationReason
              cancelledBy := some (sd.cancelledBy.getD "admin") }
  else a1

/-- `AppointmentService.updateAppointmentStatus(appointmentId, statusData, updatedBy)`. -/
def updateAppointmentStatus (store : List Appointment) (appointmentId : Nat)
    (sd : StatusData) (now : Int) :
    Except ApptError (Appointment × List Appointment) :=
  match store.find? (fun a => a.id == appointmentId) with
  | none => .error .appointmentNotFound
  | some appointment =>
    if !(isValidStatusTransition appointment.status sd.status) then
      .error (.cannotChangeStatus appointment.status sd.status)
    else
      let updated := applyStatusUpdate appointment sd
      let saved := stampTimestamps updated (updated.status != appointment.status) now
      .ok (saved, saveReplace store saved)

/-- `AppointmentService.cancelAppointment(appointmentId, userId, userRole, cancellationData)`. -/
def cancelAppointment (store : List Appointment) (appointmentId userId : Nat)
    (userRole : Role) (cancellationReason : Option String) (now : Int) :
    Except ApptError (Appointment × List Appointment) :=
  match store.find? (fun a => a.id == appointmentId) with
  | none => .error .appointmentNotFound
  | some appointment =>
    if userRole != .admin && appointment.userId != userId then
      .error .accessDenied
    else if !(canBeCancelled appointment now) then
      .error .cannotBeCancelled
    else if !(isActiveStatus appointment.status) then
      .error .onlyActiveCanBeCancelled
    else
      let a1 := { appointment with
        status := Status.cancelled
        cancellationReason := cancellationReason
        cancelledBy := some (if userRole == .admin then "admin" else "user") }
      let saved := stampTimestamps a1 (a1.status != appointment.status) now
      .ok (saved, saveReplace store saved)

/-- The `{ date, time, reason }` reschedule request body. -/
structure RescheduleData where
  date : Nat
  time : TimeOfDay
  reason : Option String
deriving Repr

/-- `AppointmentService.rescheduleAppointment(appointmentId, userId, userRole, rescheduleData)`.
The populated doctor reference is resolved from `doctors` (it is loaded
by `findById(...).populate(...)` before any check runs). -/
def rescheduleAppointment (doctors : List Doctor) (store : List Appointment)
    (appointmentId userId : Nat) (userRole : Role) (rd : RescheduleData) :
    Except ApptError (Appointment × List Appointment) :=
  match store.find? (fun a => a.id == appointmentId) with
  | none => .error .appointmentNotFound
  | some appointment =>
    match doctors.find? (fun doc => doc.id == appointment.doctorId) with
    | none => .error .doctorRecordMissing
    | some doctor =>
      if userRole != .admin && appointment.userId != userId then
        .error .accessDenied
      else if !(isActiveStatus appointment.status) then
        .error .onlyActiveCanBeRescheduled
      else if (hasConflict store appointment.doctorId rd.date rd.time
          (some appointmentId)).isSome then
        .error .newTimeSlotAlreadyBooked
      else if !(isDoctorAvailable doctor rd.date rd.time) then
        .error .doctorNotAvailableAtNewTime
      else
        let a1 := { appointment with
          date := rd.date
          time := rd.time
          reason := rd.reason.getD appointment.reason }
        .ok (a1, saveReplace store a1)

/-- The raw `{ status, cancellationReason, cancelledBy }` request body of
`PATCH /appointments/:id/status` (after the `isIn` enum check on `status`). -/
structure StatusUpdateBody where
  status : Status
  cancellationReason : Option String
  cancelledBy : Option String
deriving Repr

/-- `validateAppointmentStatus` from `src/middleware/validation.js`:
when `status` is `'cancelled'`, `cancellationReason` must be non-empty and
at most 200 characters, and `cancelledBy` must be one of
`'user' | 'doctor' | 'admin'`; for any other status both checks are
skipped (`.if(body('status').equals('cancelled'))`). -/
def validateAppointmentStatus (body : StatusUpdateBody) : Bool :=
  (if body.status == .cancelled then
    (match body.cancellationReason with
     | some r => r != "" && decide (r.length ≤ 200)
     | none => false)
  else true) &&
  (if body.status == .cancelled then
    (match body.cancelledBy with
     | some c => c == "user" || c == "doctor" || c == "admin"
     | none => false)
  else true)

/-- The `PATCH /appointments/:id/status` route: the validation chain runs
before the controller calls the service. -/
def statusUpdateRoute (store : List Appointment) (appointmentId : Nat)
    (body : StatusUpdateBody) (now : Int) :
    Except ApptError (Appointment × List Appointment) :=
  if !(validateAppointmentStatus body) then .error .validationFailed
  else
    updateAppointmentStatus store appointmentId
      { status := body.status
        cancellationReason := body.cancellationReason
        cancelledBy := body.cancelledBy } now

/-! ## Store invariants and reachable states -/

/-- The uniqueness invariant of the spec: at most one active
(pending/confirmed) appointment per (doctorId, date, time) triple.
In the running system it is enforced by the unique partial index
`{ doctorId: 1, date: 1, time: 1 }` with
`partialFilterExpression: { status: { $in: ['pending', 'confirmed'] } }`. -/
def slotUnique (store : List Appointment) : Prop :=
  ∀ a ∈ store, ∀ b ∈ store,
    isActiveStatus a.status = true → isActiveStatus b.status = true →
    a.doctorId = b.doctorId → a.date = b.date → a.time = b.time → a = b

/-- MongoDB `_id`s are unique across the collection. -/
def idsUnique (store : List Appointment) : Prop :=
  ∀ a ∈ store, ∀ b ∈ store, a.id = b.id → a = b

/-- The `_id` minted for an insert is distinct from every stored id. -/
def freshId (store : List Appointment) (i : Nat) : Prop :=
  ∀ a ∈ store, a.id ≠ i

/-- One state-mutating operation of the appointment service, applied to
the appointment collection. -/
inductive Step : List Appointment → List Appointment → Prop where
  | book (doctors : List Doctor) (store : List Appointment) (newId userId : Nat)
      (d : BookData) (appt : Appointment) (store2 : List Appointment) :
      freshId store newId →
      bookAppointment doctors store newId userId d = .ok (appt, store2) →
      Step store store2
  | updateStatus (store : List Appointment) (appointmentId : Nat) (sd : StatusData)
      (now : Int) (a : Appointment) (store2 : List Appointment) :
      updateAppointmentStatus store appointmentId sd now = .ok (a, store2) →
      Step store store2
  | cancel (store : List Appointment) (appointmentId userId : Nat) (userRole : Role)
      (r : Option String) (now : Int) (a : Appointment) (store2 : List Appointment) :
      cancelAppointment store appointmentId userId userRole r now = .ok (a, store2) →
      Step store store2
  | reschedule (doctors : List Doctor) (store : List Appointment)
      (appointmentId userId : Nat) (userRole : Role) (rd : RescheduleData)
      (a : Appointment) (store2 : List Appointment) :
      rescheduleAppointment doctors store appointmentId userId userRole rd
        = .ok (a, store2) →
      Step store store2

/-- A collection state reachable from the empty collection by the
service's operations. -/
def Reachable (store : List Appointment) : Prop :=
  Relation.ReflTransGen Step [] store

/-! ## Sample data for concrete witnesses -/

/-- A sample active doctor: id 1, open Mondays 09:00-17:00. -/
def exDoctor : Doctor :=
  { id := 1
    isActive := true
    availability := [{ day := .Monday, startTime := ⟨9, 0⟩, endTime := ⟨17, 0⟩ }]
    consultationFee := 100 }

/-- The same doctor after deactivation (`isActive = false`). -/
def exInactiveDoctor : Doctor :=
  { exDoctor with isActive := false }

/-- A sample booking request: doctor 1, epoch day 4 (a Monday), 10:00. -/
def exBook : BookData :=
  { doctorId := 1
    date := 4
    time := ⟨10, 0⟩
    reason := "checkup"
    notes := none
    symptoms := none }

/-- The appointment document created by `bookAppointment` for `exBook`. -/
def exApptMon : Appointment :=
  { id := 1
    userId := 7
    doctorId := 1
    date := 4
    time := ⟨10, 0⟩
    status := .pending
    reason := "checkup"
    notes := none
    symptoms := []
    consultationFee := 100
    cancellationReason := none
    cancelledBy := none
    confirmedAt := none
    cancelledAt := none
    completedAt := none }

/-- A second active appointment of doctor 1, on epoch day 5 (a Tuesday,
outside the doctor's Monday availability) at 10:00. -/
def exApptTue : Appointment :=
  { id := 2
    userId := 8
    doctorId := 1
    date := 5
    time := ⟨10, 0⟩
    status := .pending
    reason := "flu"
    notes := none
    symptoms := []
    consultationFee := 100
    cancellationReason := none
    cancelledBy := none
    confirmedAt := none
    cancelledAt := none
    completedAt := none }

/-! ## Helper lemmas -/

theorem bookAppointment_ok_inv {doctors : List Doctor} {store : List Appointment}
    {newId userId : Nat} {d : BookData} {appt : Appointment} {store2 : List Appointment}
    (h : bookAppointment doctors store newId userId d = .ok (appt, store2)) :
    ∃ doctor, doctors.find? (fun doc => doc.id == d.doctorId) = some doctor ∧
      doctor.isActive = true ∧
      isDoctorAvailable doctor d.date d.time = true ∧
      hasConflict store d.doctorId d.date d.time none = none ∧
      appt.id = newId ∧ appt.doctorId = d.doctorId ∧ appt.date = d.date ∧
      appt.time = d.time ∧ appt.status = .pending ∧
      store2 = store ++ [appt] := by
  unfold bookAppointment at h
  split at h
  · cases h
  · rename_i doctor hfind
    refine ⟨doctor, hfind, ?_⟩
    split at h
    · cases h
    · split at h
      · cases h
      · split at h
        · cases h
        · rename_i hact havail hconf
          cases h
          simp_all [Option.not_isSome_iff_eq_none]

theorem updateAppointmentStatus_ok_inv {store : List Appointment} {appointmentId : Nat}
    {sd : StatusData} {now : Int} {a : Appointment} {store2 : List Appointment}
    (h : updateAppointmentStatus store appointmentId sd now = .ok (a, store2)) :
    ∃ appointment, store.find? (fun x => x.id == appointmentId) = some appointment ∧
      isValidStatusTransition appointment.status sd.status = true ∧
      a = stampTimestamps (applyStatusUpdate appointment sd)
            ((applyStatusUpdate appointment sd).status != appointment.status) now ∧
      store2 = saveReplace store a := by
  unfold updateAppointmentStatus at h
  split at h
  · cases h
  · rename_i appointment hfind
    refine ⟨appointment, hfind, ?_⟩
    split at h
    · cases h
    · rename_i hvalid
      cases h
      simp_all

theorem cancelAppointment_ok_inv {store : List Appointment} {appointmentId userId : Nat}
    {userRole : Role} {r : Option String} {now : Int} {a : Appointment}
    {store2 : List Appointment}
    (h : cancelAppointment store appointmentId userId userRole r now = .ok (a, store2)) :
    ∃ appointment, store.find? (fun x => x.id == appointmentId) = some appointment ∧
      (userRole = .admin ∨ appointment.userId = userId) ∧
      canBeCancelled appointment now = true ∧
      isActiveStatus appointment.status = true ∧
      a = stampTimestamps
            { appointment with
                status := Status.cancelled
                cancellationReason := r
                cancelledBy := some (if userRole == .admin then "admin" else "user") }
            (Status.cancelled != appointment.status) now ∧
      store2 = saveReplace store a := by
  unfold cancelAppointment at h
  split at h
  · cases h
  · rename_i appointment hfind
    refine ⟨appointment, hfind, ?_⟩
    split at h
    · cases h
    · rename_i hacc
      split at h
      · cases h
      · split at h
        · cases h
        · rename_i hcan hstat
          cases h
          refine ⟨?_, by simp_all, by simp_all, rfl, rfl⟩
          rcases userRole with _ | _ <;> simp_all

theorem rescheduleAppointment_ok_inv {doctors : List Doctor} {store : List Appointment}
    {appointmentId userId : Nat} {userRole : Role} {rd : RescheduleData}
    {a : Appointment} {store2 : List Appointment}
    (h : rescheduleAppointment doctors store appointmentId userId userRole rd
          = .ok (a, store2)) :
    ∃ appointment doctor,
      store.find? (fun x => x.id == appointmentId) = some appointment ∧
      doctors.find? (fun doc => doc.id == appointment.doctorId) = some doctor ∧
      (userRole = .admin ∨ appointment.userId = userId) ∧
      isActiveStatus appointment.status = true ∧
      hasConflict store appointment.doctorId rd.date rd.time (some appointmentId) = none ∧
      isDoctorAvailable doctor rd.date rd.time = true ∧
      a = { appointment with
              date := rd.date
              time := rd.time
              reason := rd.reason.getD appointment.reason } ∧
      store2 = saveReplace store a := by
  unfold rescheduleAppointment at h
  split at h
  · cases h
  · rename_i appointment hfind
    split at h
    · cases h
    · rename_i doctor hdoc
      refine ⟨appointment, doctor, hfind, hdoc, ?_⟩
      split at h
      · cases h
      · rename_i hacc
        split at h
        · cases h
        · split at h
          · cases h
          · split at h
            · cases h
            · rename_i hstat hconf havail
              cases h
              refine ⟨?_, by simp_all, by simp_all [Option.not_isSome_iff_eq_none], by simp_all, rfl, rfl⟩
              rcases userRole with _ | _ <;> simp_all

theorem mem_saveReplace {store : List Appointment} {saved x : Appointment}
    (hx : x ∈ saveReplace store saved) :
    x = saved ∨ (x ∈ store ∧ x.id ≠ saved.id) := by
  unfold saveReplace at hx
  rcases List.mem_map.mp hx with ⟨b, hb, hfb⟩
  by_cases hbi : b.id = saved.id
  · left; simp [hbi] at hfb; exact hfb.symm
  · right
    simp only [beq_iff_eq, hbi, if_false] at hfb
    subst hfb
    exact ⟨hb, hbi⟩

theorem hasConflict_none_no_match {store : List Appointment} {doctorId date : Nat}
    {time : TimeOfDay} {excludeId : Option Nat}
    (h : hasConflict store doctorId date time excludeId = none)
    {b : Appointment} (hb : b ∈ store)
    (hact : isActiveStatus b.status = true)
    (hdoc : b.doctorId = doctorId) (hdate : b.date = date) (htime : b.time = time)
    (hex : ∀ e, excludeId = some e → b.id ≠ e) : False := by
  have := List.find?_eq_none.mp h b hb
  apply this
  simp only [hdoc, hdate, htime, hact, beq_self_eq_true, Bool.and_true, Bool.true_and]
  rcases hexq : excludeId with _ | e
  · simp
  · simp only [bne_iff_ne, ne_eq, decide_eq_true_eq]
    simp_all [hex e hexq]

theorem invariant_preserved_replace {store : List Appointment} {orig saved : Appointment}
    (hsu : slotUnique store) (hid : idsUnique store) (hmem : orig ∈ store)
    (hids : saved.id = orig.id) (hdoc : saved.doctorId = orig.doctorId)
    (hdate : saved.date = orig.date) (htime : saved.time = orig.time)
    (hact : isActiveStatus saved.status = true → isActiveStatus orig.status = true) :
    slotUnique (saveReplace store saved) ∧ idsUnique (saveReplace store saved) := by
  constructor
  · intro x hx y hy hax hay hd hdt ht
    rcases mem_saveReplace hx with hxs | ⟨hxm, hxi⟩ <;>
      rcases mem_saveReplace hy with hys | ⟨hym, hyi⟩
    · rw [hxs, hys]
    · subst hxs
      exfalso
      have : orig = y := hsu orig hmem y hym (hact hax) hay
        (by rw [← hdoc, hd]) (by rw [← hdate, hdt]) (by rw [← htime, ht])
      exact hyi (by rw [← this, ← hids])
    · subst hys
      exfalso
      have : orig = x := hsu orig hmem x hxm (hact hay) hax
        (by rw [← hdoc, ← hd]) (by rw [← hdate, ← hdt]) (by rw [← htime, ← ht])
      exact hxi (by rw [← this, ← hids])
    · exact hsu x hxm y hym hax hay hd hdt ht
  · intro x hx y hy hxy
    rcases mem_saveReplace hx with hxs | ⟨hxm, hxi⟩ <;>
      rcases mem_saveReplace hy with hys | ⟨hym, hyi⟩
    · rw [hxs, hys]
    · exact absurd (by rw [← hxy, hxs]) (Ne.symm hyi)
    · exact absurd (by rw [hxy, hys]) (Ne.symm hxi)
    · exact hid x hxm y hym hxy

theorem invariant_preserved_move {store : List Appointment} {orig saved : Appointment}
    (hsu : slotUnique store) (hid : idsUnique store) (_hmem : orig ∈ store)
    (hids : saved.id = orig.id) (hdoc : saved.doctorId = orig.doctorId)
    (hconf : hasConflict store saved.doctorId saved.date saved.time (some orig.id) = none) :
    slotUnique (saveReplace store saved) ∧ idsUnique (saveReplace store saved) := by
  constructor
  · intro x hx y hy hax hay hd hdt ht
    rcases mem_saveReplace hx with hxs | ⟨hxm, hxi⟩ <;>
      rcases mem_saveReplace hy with hys | ⟨hym, hyi⟩
    · rw [hxs, hys]
    · subst hxs
      exact absurd trivial (fun _ => hasConflict_none_no_match hconf hym hay
        hd.symm hdt.symm ht.symm
        (fun e he => by cases he; rw [← hids]; exact fun hc => hyi hc))
    · subst hys
      exact absurd trivial (fun _ => hasConflict_none_no_match hconf hxm hax
        hd hdt ht
        (fun e he => by cases he; rw [← hids]; exact fun hc => hxi hc))
    · exact hsu x hxm y hym hax hay hd hdt ht
  · intro x hx y hy hxy
    rcases mem_saveReplace hx with hxs | ⟨hxm, hxi⟩ <;>
      rcases mem_saveReplace hy with hys | ⟨hym, hyi⟩
    · rw [hxs, hys]
    · exact absurd (by rw [← hxy, hxs]) (Ne.symm hyi)
    · exact absurd (by rw [hxy, hys]) (Ne.symm hxi)
    · exact hid x hxm y hym hxy

theorem invariant_preserved_append {store : List Appointment} {appt : Appointment}
    (hsu : slotUnique store) (hid : idsUnique store)
    (hfresh : freshId store appt.id)
    (hconf : hasConflict store appt.doctorId appt.date appt.time none = none) :
    slotUnique (store ++ [appt]) ∧ idsUnique (store ++ [appt]) := by
  have hmem : ∀ {x : Appointment}, x ∈ store ++ [appt] → x ∈ store ∨ x = appt := by
    intro x hx
    rcases List.mem_append.mp hx with hxm | hxa
    · exact Or.inl hxm
    · exact Or.inr (List.mem_singleton.mp hxa)
  constructor
  · intro x hx y hy hax hay hd hdt ht
    rcases hmem hx with hxm | hxa <;> rcases hmem hy with hym | hya
    · exact hsu x hxm y hym hax hay hd hdt ht
    · subst hya
      exact absurd trivial (fun _ => hasConflict_none_no_match hconf hxm hax
        hd hdt ht (fun e he => by cases he))
    · subst hxa
      exact absurd trivial (fun _ => hasConflict_none_no_match hconf hym hay
        hd.symm hdt.symm ht.symm (fun e he => by cases he))
    · rw [hxa, hya]
  · intro x hx y hy hxy
    rcases hmem hx with hxm | hxa <;> rcases hmem hy with hym | hya
    · exact hid x hxm y hym hxy
    · subst hya; exact absurd hxy (hfresh x hxm)
    · subst hxa; exact absurd hxy.symm (hfresh y hym)
    · rw [hxa, hya]

@[simp] theorem stampTimestamps_id (a : Appointment) (m : Bool) (now : Int) :
    (stampTimestamps a m now).id = a.id := by
  unfold stampTimestamps
  split
  · cases a.status <;> simp <;> split <;> rfl
  · rfl

@[simp] theorem stampTimestamps_doctorId (a : Appointment) (m : Bool) (now : Int) :
    (stampTimestamps a m now).doctorId = a.doctorId := by
  unfold stampTimestamps
  split
  · cases a.status <;> simp <;> split <;> rfl
  · rfl

@[simp] theorem stampTimestamps_date (a : Appointment) (m : Bool) (now : Int) :
    (stampTimestamps a m now).date = a.date := by
  unfold stampTimestamps
  split
  · cases a.status <;> simp <;> split <;> rfl
  · rfl

@[simp] theorem stampTimestamps_time (a : Appointment) (m : Bool) (now : Int) :
    (stampTimestamps a m now).time = a.time := by
  unfold stampTimestamps
  split
  · cases a.status <;> simp <;> split <;> rfl
  · rfl

@[simp] theorem stampTimestamps_status (a : Appointment) (m : Bool) (now : Int) :
    (stampTimestamps a m now).status = a.status := by
  unfold stampTimestamps
  split
  · cases h : a.status <;> simp [h] <;> split <;> simp [h]
  · rfl

@[simp] theorem applyStatusUpdate_id (appt : Appointment) (sd : StatusData) :
    (applyStatusUpdate appt sd).id = appt.id := by
  unfold applyStatusUpdate; split <;> rfl

@[simp] theorem applyStatusUpdate_doctorId (appt : Appointment) (sd : StatusData) :
    (applyStatusUpdate appt sd).doctorId = appt.doctorId := by
  unfold applyStatusUpdate; split <;> rfl

@[simp] theorem applyStatusUpdate_date (appt : Appointment) (sd : StatusData) :
    (applyStatusUpdate appt sd).date = appt.date := by
  unfold applyStatusUpdate; split <;> rfl

@[simp] theorem applyStatusUpdate_time (appt : Appointment) (sd : StatusData) :
    (applyStatusUpdate appt sd).time = appt.time := by
  unfold applyStatusUpdate; split <;> rfl

@[simp] theorem applyStatusUpdate_status (appt : Appointment) (sd : StatusData) :
    (applyStatusUpdate appt sd).status = sd.status := by
  unfold applyStatusUpdate; split <;> rfl

theorem activeTarget_activeSource (cur new : Status) :
    isValidStatusTransition cur new = true → isActiveStatus new = true →
    isActiveStatus cur = true := by
  cases cur <;> cases new <;> decide


theorem step_preserves_invariant {store store2 : List Appointment}
    (hstep : Step store store2)
    (hsu : slotUnique store) (hid : idsUnique store) :
    slotUnique store2 ∧ idsUnique store2 := by
  cases hstep with
  | book doctors st newId userId d appt st2 hfresh hok =>
    obtain ⟨doctor, _, _, _, hconf, hida, hdoca, hdatea, htimea, _, hst2⟩ :=
      bookAppointment_ok_inv hok
    subst hst2
    exact invariant_preserved_append hsu hid (hida ▸ hfresh)
      (by rw [hdoca, hdatea, htimea]; exact hconf)
  | updateStatus st appointmentId sd now a st2 hok =>
    obtain ⟨appointment, hfind, hvalid, ha, hst2⟩ := updateAppointmentStatus_ok_inv hok
    subst hst2
    have hmem := List.mem_of_find?_eq_some hfind
    apply invariant_preserved_replace hsu hid hmem
    · rw [ha]; simp
    · rw [ha]; simp
    · rw [ha]; simp
    · rw [ha]; simp
    · intro hact
      rw [ha] at hact
      simp at hact
      exact activeTarget_activeSource _ _ hvalid hact
  | cancel st appointmentId userId userRole r now a st2 hok =>
    obtain ⟨appointment, hfind, hacc, hcan, hactive, ha, hst2⟩ := cancelAppointment_ok_inv hok
    subst hst2
    have hmem := List.mem_of_find?_eq_some hfind
    apply invariant_preserved_replace hsu hid hmem
    · rw [ha]; simp
    · rw [ha]; simp
    · rw [ha]; simp
    · rw [ha]; simp
    · intro hact
      rw [ha] at hact
      simp [isActiveStatus] at hact
  | reschedule doctors st appointmentId userId userRole rd a st2 hok =>
    obtain ⟨appointment, doctor, hfind, hdoc, hacc, hactive, hconf, havail, ha, hst2⟩ :=
      rescheduleAppointment_ok_inv hok
    subst hst2
    have hmem := List.mem_of_find?_eq_some hfind
    have hidp : appointment.id = appointmentId := by
      have := List.find?_some hfind
      simpa using this
    apply invariant_preserved_move hsu hid hmem
    · rw [ha]
    · rw [ha]
    · rw [ha]
      simp only [hidp]
      exact hconf

theorem reachable_invariant {store : List Appointment} (h : Reachable store) :
    slotUnique store ∧ idsUnique store := by
  unfold Reachable at h
  induction h with
  | refl =>
    constructor
    · intro a ha; cases ha
    · intro a ha; cases ha
  | tail hsteps hstep ih =>
    exact step_preserves_invariant hstep ih.1 ih.2

/-- C1: in every reachable state of the appointment collection, at most
one appointment with status in \x7bpending, confirmed\x7d exists per
(doctorId, date, time) triple, and any appointment returned by the
conflict check is active — cancelled or completed appointments never
block a slot. -/
theorem C1_slot_uniqueness (store : List Appointment) (h : Reachable store) :
    slotUnique store ∧
    (∀ (doctorId date : Nat) (time : TimeOfDay) (excludeId : Option Nat)
        (a : Appointment),
      hasConflict store doctorId date time excludeId = some a →
      isActiveStatus a.status = true) := by
  refine ⟨(reachable_invariant h).1, ?_⟩
  intro doctorId date time excludeId a ha
  have hp := List.find?_some ha
  simp only [Bool.and_eq_true] at hp
  exact hp.1.2

theorem C1_slot_uniqueness_witness :
    slotUnique [exApptMon] ∧
    (∀ (doctorId date : Nat) (time : TimeOfDay) (excludeId : Option Nat)
        (a : Appointment),
      hasConflict [exApptMon] doctorId date time excludeId = some a →
      isActiveStatus a.status = true) :=
  C1_slot_uniqueness [exApptMon]
    (Relation.ReflTransGen.single
      (Step.book [exDoctor] [] 1 7 exBook exApptMon [exApptMon]
        (by intro a ha; cases ha)
        (by rfl)))

theorem slotCovers_iff (slot : AvailabilitySlot) (dow : Weekday) (time : TimeOfDay) :
    slotCovers slot dow time = true ↔
      slot.day = dow ∧ parseTime slot.startTime ≤ parseTime time ∧
        parseTime time < parseTime slot.endTime := by
  unfold slotCovers
  split
  · rename_i hday
    simp only [bne_iff_ne, ne_eq] at hday
    simp [hday]
  · rename_i hday
    simp only [bne_iff_ne, ne_eq, not_not] at hday
    simp [hday]

/-- C2: the availability gate of `bookAppointment` accepts a requested
time iff some availability slot of the doctor matches the request date's
weekday and covers the time in the half-open interval
`start <= t < end` (minutes since midnight); per slot, the exact end
time is never covered while the exact start time is (when the slot is
nonempty); when no slot covers the request, booking an existing active
doctor fails with the doctor-unavailable error, and when one does (and
the slot is free) booking succeeds. -/
theorem C2_availability_gate (doctors : List Doctor) (store : List Appointment)
    (newId userId : Nat) (d : BookData) (doctor : Doctor)
    (hfind : doctors.find? (fun doc => doc.id == d.doctorId) = some doctor)
    (hact : doctor.isActive = true) :
    (∀ (date : Nat) (time : TimeOfDay),
      isDoctorAvailable doctor date time = true ↔
        ∃ slot ∈ doctor.availability, slot.day = dayOfWeek date ∧
          parseTime slot.startTime ≤ parseTime time ∧
          parseTime time < parseTime slot.endTime) ∧
    (∀ (slot : AvailabilitySlot) (dow : Weekday),
      slotCovers slot dow slot.endTime = false) ∧
    (∀ (slot : AvailabilitySlot) (dow : Weekday),
      slot.day = dow → parseTime slot.startTime < parseTime slot.endTime →
      slotCovers slot dow slot.startTime = true) ∧
    (isDoctorAvailable doctor d.date d.time = false →
      bookAppointment doctors store newId userId d = .error .doctorNotAvailableAtTime) ∧
    (isDoctorAvailable doctor d.date d.time = true →
      hasConflict store d.doctorId d.date d.time none = none →
      ∃ a, bookAppointment doctors store newId userId d = .ok (a, store ++ [a])) := by
  refine ⟨?_, ?_, ?_, ?_, ?_⟩
  · intro date time
    unfold isDoctorAvailable
    rw [List.any_eq_true]
    constructor
    · rintro ⟨slot, hmem, hcov⟩
      exact ⟨slot, hmem, (slotCovers_iff slot _ time).mp hcov⟩
    · rintro ⟨slot, hmem, hprop⟩
      exact ⟨slot, hmem, (slotCovers_iff slot _ time).mpr hprop⟩
  · intro slot dow
    unfold slotCovers
    split
    · rfl
    · simp
  · intro slot dow hday hlt
    rw [slotCovers_iff]
    exact ⟨hday, le_refl _, hlt⟩
  · intro hunavail
    unfold bookAppointment
    rw [hfind]
    simp [hact, hunavail]
  · intro havail hconf
    unfold bookAppointment
    rw [hfind]
    simp [hact, havail, hconf]

theorem C2_availability_gate_witness :
    ((∀ (date : Nat) (time : TimeOfDay),
      isDoctorAvailable exDoctor date time = true ↔
        ∃ slot ∈ exDoctor.availability, slot.day = dayOfWeek date ∧
          parseTime slot.startTime ≤ parseTime time ∧
          parseTime time < parseTime slot.endTime) ∧
    (∀ (slot : AvailabilitySlot) (dow : Weekday),
      slotCovers slot dow slot.endTime = false) ∧
    (∀ (slot : AvailabilitySlot) (dow : Weekday),
      slot.day = dow → parseTime slot.startTime < parseTime slot.endTime →
      slotCovers slot dow slot.startTime = true) ∧
    (isDoctorAvailable exDoctor exBook.date exBook.time = false →
      bookAppointment [exDoctor] [] 1 7 exBook = .error .doctorNotAvailableAtTime) ∧
    (isDoctorAvailable exDoctor exBook.date exBook.time = true →
      hasConflict [] exBook.doctorId exBook.date exBook.time none = none →
      ∃ a, bookAppointment [exDoctor] [] 1 7 exBook = .ok (a, [] ++ [a]))) :=
  C2_availability_gate [exDoctor] [] 1 7 exBook exDoctor (by rfl) (by rfl)

/-- C3: the transition test accepts exactly the four pairs
pending→confirmed, pending→cancelled, confirmed→completed,
confirmed→cancelled (cancelled and completed have no outgoing
transitions), and `updateAppointmentStatus` on an existing appointment
fails with the invalid-transition error exactly on the pairs outside
the table, while on pairs in the table it succeeds and sets the
requested status. -/
theorem C3_transition_closure :
    (∀ cur req : Status,
      isValidStatusTransition cur req = true ↔
        ((cur = .pending ∧ req = .confirmed) ∨ (cur = .pending ∧ req = .cancelled) ∨
          (cur = .confirmed ∧ req = .completed) ∨
          (cur = .confirmed ∧ req = .cancelled))) ∧
    (∀ req : Status, isValidStatusTransition .cancelled req = false ∧
      isValidStatusTransition .completed req = false) ∧
    (∀ (store : List Appointment) (appointmentId : Nat) (sd : StatusData) (now : Int)
        (appt : Appointment),
      store.find? (fun x => x.id == appointmentId) = some appt →
      (isValidStatusTransition appt.status sd.status = false →
        updateAppointmentStatus store appointmentId sd now =
          .error (.cannotChangeStatus appt.status sd.status)) ∧
      (isValidStatusTransition appt.status sd.status = true →
        ∃ a store2, updateAppointmentStatus store appointmentId sd now = .ok (a, store2) ∧
          a.status = sd.status)) := by
  refine ⟨?_, ?_, ?_⟩
  · intro cur req
    cases cur <;> cases req <;> decide
  · intro req
    cases req <;> decide
  intro store appointmentId sd now appt hfind
  constructor
  · intro hbad
    unfold updateAppointmentStatus
    rw [hfind]
    simp [hbad]
  · intro hok
    unfold updateAppointmentStatus
    rw [hfind]
    simp only [hok, Bool.not_true, Bool.false_eq_true, if_false]
    exact ⟨_, _, rfl, by simp⟩

/-- C4: the pre-save hook stamps the timestamp matching the (modified)
status with the current time only when that timestamp is not already
set; an existing timestamp is never overwritten, the other two
timestamp fields are untouched, and a save without a status
modification stamps nothing. -/
theorem C4_timestamp_write_once (a : Appointment) (now : Int) :
    (stampTimestamps a false now = a) ∧
    ((stampTimestamps a true now).confirmedAt =
      if a.status = .confirmed ∧ a.confirmedAt = none then some now
      else a.confirmedAt) ∧
    ((stampTimestamps a true now).cancelledAt =
      if a.status = .cancelled ∧ a.cancelledAt = none then some now
      else a.cancelledAt) ∧
    ((stampTimestamps a true now).completedAt =
      if a.status = .completed ∧ a.completedAt = none then some now
      else a.completedAt) ∧
    (stampTimestamps a true now).status = a.status ∧
    (stampTimestamps a true now).id = a.id := by
  refine ⟨rfl, ?_, ?_, ?_, by simp, by simp⟩ <;>
  · unfold stampTimestamps
    cases a.status <;> cases hc : a.confirmedAt <;> cases hl : a.cancelledAt <;>
      cases ho : a.completedAt <;> simp_all

theorem stampTimestamps_cancelledBy (a : Appointment) (m : Bool) (now : Int) :
    (stampTimestamps a m now).cancelledBy = a.cancelledBy := by
  unfold stampTimestamps
  split
  · cases a.status <;> simp <;> split <;> rfl
  · rfl

theorem stampTimestamps_cancellationReason (a : Appointment) (m : Bool) (now : Int) :
    (stampTimestamps a m now).cancellationReason = a.cancellationReason := by
  unfold stampTimestamps
  split
  · cases a.status <;> simp <;> split <;> rfl
  · rfl

theorem stampTimestamps_userId (a : Appointment) (m : Bool) (now : Int) :
    (stampTimestamps a m now).userId = a.userId := by
  unfold stampTimestamps
  split
  · cases a.status <;> simp <;> split <;> rfl
  · rfl

theorem stampTimestamps_reason (a : Appointment) (m : Bool) (now : Int) :
    (stampTimestamps a m now).reason = a.reason := by
  unfold stampTimestamps
  split
  · cases a.status <;> simp <;> split <;> rfl
  · rfl

/-- C5: for user and admin requesters alike, `cancelAppointment`
succeeds exactly when the appointment is pending or confirmed and its
date+time is at least 24 hours (1440 minutes) after now — the boundary
is inclusive, and a smaller lead time fails with the cannot-cancel
error; on success the status becomes cancelled and `cancelledBy` is
`'admin'` for an admin requester and `'user'` otherwise. -/
theorem C5_cancellation_window (store : List Appointment) (appointmentId userId : Nat)
    (userRole : Role) (r : Option String) (now : Int) (appt : Appointment)
    (hfind : store.find? (fun x => x.id == appointmentId) = some appt)
    (hacc : userRole = .admin ∨ appt.userId = userId) :
    ((∃ a store2, cancelAppointment store appointmentId userId userRole r now
        = .ok (a, store2)) ↔
      (isActiveStatus appt.status = true ∧
        appointmentDateTime appt - now ≥ 24 * 60)) ∧
    (appointmentDateTime appt - now < 24 * 60 →
      cancelAppointment store appointmentId userId userRole r now
        = .error .cannotBeCancelled) ∧
    (∀ a store2, cancelAppointment store appointmentId userId userRole r now
        = .ok (a, store2) →
      a.status = .cancelled ∧
      a.cancelledBy = some (if userRole = .admin then "admin" else "user")) := by
  have haccb : (userRole != Role.admin && appt.userId != userId) = false := by
    rcases hacc with h | h <;> simp [h]
  refine ⟨⟨?_, ?_⟩, ?_, ?_⟩
  · rintro ⟨a, store2, hok⟩
    obtain ⟨appointment, hfind2, _, hcan, hactive, _, _⟩ := cancelAppointment_ok_inv hok
    rw [hfind] at hfind2
    cases hfind2
    unfold canBeCancelled at hcan
    simp only [Bool.and_eq_true, decide_eq_true_eq] at hcan
    exact ⟨hcan.1, hcan.2⟩
  · rintro ⟨hactive, hlead⟩
    have hcan : canBeCancelled appt now = true := by
      unfold canBeCancelled
      simp only [hactive, Bool.true_and, decide_eq_true_eq]
      omega
    simp only [cancelAppointment, hfind, haccb, hcan, hactive]
    simp
  · intro hlead
    have hcan : canBeCancelled appt now = false := by
      unfold canBeCancelled
      simp [hlead]
      intro _
      omega
    simp only [cancelAppointment, hfind, haccb, hcan]
    simp
  · intro a store2 hok
    obtain ⟨appointment, hfind2, _, _, _, ha, _⟩ := cancelAppointment_ok_inv hok
    rw [hfind] at hfind2
    cases hfind2
    subst ha
    refine ⟨by simp, ?_⟩
    rw [stampTimestamps_cancelledBy]
    rcases userRole with _ | _ <;> simp

theorem C5_cancellation_window_witness :
    (((∃ a store2, cancelAppointment [exApptMon] 1 7 .user (some "sick") 4920
        = .ok (a, store2)) ↔
      (isActiveStatus exApptMon.status = true ∧
        appointmentDateTime exApptMon - 4920 ≥ 24 * 60)) ∧
    (appointmentDateTime exApptMon - 4920 < 24 * 60 →
      cancelAppointment [exApptMon] 1 7 .user (some "sick") 4920
        = .error .cannotBeCancelled) ∧
    (∀ a store2, cancelAppointment [exApptMon] 1 7 .user (some "sick") 4920
        = .ok (a, store2) →
      a.status = .cancelled ∧
      a.cancelledBy = some (if Role.user = Role.admin then "admin" else "user"))) :=
  C5_cancellation_window [exApptMon] 1 7 .user (some "sick") 4920 exApptMon
    (by rfl) (Or.inr rfl)

/-- C6: rescheduling a pending or confirmed appointment to the exact
(date, time) it already occupies never reports a slot conflict — the
conflict query excludes the appointment's own id — and succeeds when
the doctor's availability covers that day/time; on success the date,
time and (when supplied) reason are updated while id, status, user and
doctor are unchanged. -/
theorem C6_reschedule_self_exclusion (doctors : List Doctor)
    (store : List Appointment) (appointmentId userId : Nat) (userRole : Role)
    (rd : RescheduleData) (appt : Appointment) (doctor : Doctor)
    (hsu : slotUnique store)
    (hfind : store.find? (fun x => x.id == appointmentId) = some appt)
    (hdoc : doctors.find? (fun d => d.id == appt.doctorId) = some doctor)
    (hacc : userRole = .admin ∨ appt.userId = userId)
    (hstatus : isActiveStatus appt.status = true)
    (hdate : rd.date = appt.date) (htime : rd.time = appt.time)
    (havail : isDoctorAvailable doctor rd.date rd.time = true) :
    rescheduleAppointment doctors store appointmentId userId userRole rd
      ≠ .error .newTimeSlotAlreadyBooked ∧
    (∃ a store2,
      rescheduleAppointment doctors store appointmentId userId userRole rd
        = .ok (a, store2) ∧
      a.id = appt.id ∧ a.status = appt.status ∧ a.date = rd.date ∧
      a.time = rd.time ∧ a.reason = rd.reason.getD appt.reason ∧
      a.userId = appt.userId ∧ a.doctorId = appt.doctorId) := by
  have hid : appt.id = appointmentId := by
    have := List.find?_some hfind
    simpa using this
  have hmem := List.mem_of_find?_eq_some hfind
  have hconf : hasConflict store appt.doctorId rd.date rd.time (some appointmentId)
      = none := by
    unfold hasConflict
    rw [List.find?_eq_none]
    intro b hb hpred
    simp only [Bool.and_eq_true, beq_iff_eq, bne_iff_ne, ne_eq,
      decide_eq_true_eq] at hpred
    obtain ⟨⟨⟨⟨hbd, hbdate⟩, hbtime⟩, hbact⟩, hbid⟩ := hpred
    have : b = appt := hsu b hb appt hmem hbact hstatus hbd
      (by rw [hbdate, hdate]) (by rw [hbtime, htime])
    subst this
    exact hbid hid
  have haccb : (userRole != Role.admin && appt.userId != userId) = false := by
    rcases hacc with h | h <;> simp [h]
  have hrun : rescheduleAppointment doctors store appointmentId userId userRole rd
      = .ok ({ appt with
          date := rd.date
          time := rd.time
          reason := rd.reason.getD appt.reason },
        saveReplace store { appt with
          date := rd.date
          time := rd.time
          reason := rd.reason.getD appt.reason }) := by
    simp only [rescheduleAppointment, hfind, hdoc, haccb, hstatus, hconf, havail]
    simp
  constructor
  · rw [hrun]
    intro h
    cases h
  · exact ⟨_, _, hrun, rfl, rfl, rfl, rfl, rfl, rfl, rfl⟩

theorem C6_reschedule_self_exclusion_witness :
    (rescheduleAppointment [exDoctor] [exApptMon] 1 7 .user
        { date := 4, time := ⟨10, 0⟩, reason := none }
      ≠ .error .newTimeSlotAlreadyBooked ∧
    (∃ a store2,
      rescheduleAppointment [exDoctor] [exApptMon] 1 7 .user
          { date := 4, time := ⟨10, 0⟩, reason := none }
        = .ok (a, store2) ∧
      a.id = exApptMon.id ∧ a.status = exApptMon.status ∧ a.date = 4 ∧
      a.time = ⟨10, 0⟩ ∧
      a.reason = (Option.getD none exApptMon.reason) ∧
      a.userId = exApptMon.userId ∧ a.doctorId = exApptMon.doctorId)) :=
  C6_reschedule_self_exclusion [exDoctor] [exApptMon] 1 7 .user
    { date := 4, time := ⟨10, 0⟩, reason := none } exApptMon exDoctor
    (by
      intro a ha b hb _ _ _ _ _
      simp only [List.mem_singleton] at ha hb
      rw [ha, hb])
    (by rfl) (by rfl) (Or.inr rfl) (by rfl) rfl rfl (by rfl)

/-- C7: through the status-update route, a transition to `cancelled`
requires a non-empty `cancellationReason` of at most 200 characters and
a `cancelledBy` value among `'user'`, `'doctor'`, `'admin'`; when the
validation fails (in particular when either field is absent) the route
rejects with the validation error before the service runs, and for any
status other than `cancelled` no such requirement is imposed. -/
theorem C7_cancellation_requires_reason :
    (∀ body : StatusUpdateBody,
      validateAppointmentStatus body = true ↔
        (body.status = .cancelled →
          (∃ s, body.cancellationReason = some s ∧ s ≠ "" ∧ s.length ≤ 200) ∧
          (body.cancelledBy = some "user" ∨ body.cancelledBy = some "doctor" ∨
            body.cancelledBy = some "admin"))) ∧
    (∀ (store : List Appointment) (appointmentId : Nat) (body : StatusUpdateBody)
        (now : Int),
      validateAppointmentStatus body = false →
      statusUpdateRoute store appointmentId body now = .error .validationFailed) := by
  constructor
  · intro body
    unfold validateAppointmentStatus
    rcases body with ⟨status, cr, cb⟩
    simp only
    by_cases hs : status = Status.cancelled
    · subst hs
      simp only [beq_self_eq_true, if_true, Bool.and_eq_true, forall_const]
      constructor
      · rintro ⟨hr, hb⟩
        constructor
        · rcases cr with _ | s
          · cases hr
          · simp only [Bool.and_eq_true, bne_iff_ne, ne_eq, decide_eq_true_eq] at hr
            exact ⟨s, rfl, hr.1, hr.2⟩
        · rcases cb with _ | c
          · cases hb
          · simp only [Bool.or_eq_true, beq_iff_eq] at hb
            rcases hb with (h | h) | h <;> simp [h]
      · rintro ⟨⟨s, hcr, hne, hlen⟩, hb⟩
        subst hcr
        constructor
        · simp only [Bool.and_eq_true, bne_iff_ne, ne_eq, decide_eq_true_eq]
          exact ⟨hne, hlen⟩
        · rcases hb with h | h | h <;> subst h <;> simp
    · have : (status == Status.cancelled) = false := by
        simp [hs]
      simp [this, hs]
  · intro store appointmentId body now hbad
    unfold statusUpdateRoute
    simp [hbad]

/-- C8 counterexample: doctor 1 is only open Mondays; appointment 1
(Monday 10:00) is rescheduled to Tuesday 10:00, a slot that is outside
every availability slot AND occupied by active appointment 2 — the call
fails with the slot-taken error, not the doctor-unavailable error the
claim requires. -/
theorem C8_counterexample :
    rescheduleAppointment [exDoctor] [exApptMon, exApptTue] 1 7 .user
        { date := 5, time := ⟨10, 0⟩, reason := none }
      = .error .newTimeSlotAlreadyBooked ∧
    isDoctorAvailable exDoctor 5 ⟨10, 0⟩ = false ∧
    (hasConflict [exApptMon, exApptTue] 1 5 ⟨10, 0⟩ (some 1)).isSome = true ∧
    ApptError.newTimeSlotAlreadyBooked ≠ ApptError.doctorNotAvailableAtNewTime := by
  refine ⟨by rfl, by rfl, by rfl, by decide⟩

/-- C8 amended: in `rescheduleAppointment` the conflict query runs
before the availability check, so when the requested new (date, time)
is both occupied by another active appointment and outside every
availability slot, the call fails with the slot-taken error;
the doctor-unavailable error is reported only when the new slot is not
taken. -/
theorem C8_conflict_checked_before_availability (doctors : List Doctor)
    (store : List Appointment) (appointmentId userId : Nat) (userRole : Role)
    (rd : RescheduleData) (appt : Appointment) (doctor : Doctor)
    (hfind : store.find? (fun x => x.id == appointmentId) = some appt)
    (hdoc : doctors.find? (fun d => d.id == appt.doctorId) = some doctor)
    (hacc : userRole = .admin ∨ appt.userId = userId)
    (hstatus : isActiveStatus appt.status = true) :
    ((hasConflict store appt.doctorId rd.date rd.time (some appointmentId)).isSome
        = true →
      rescheduleAppointment doctors store appointmentId userId userRole rd
        = .error .newTimeSlotAlreadyBooked) ∧
    (hasConflict store appt.doctorId rd.date rd.time (some appointmentId) = none →
      isDoctorAvailable doctor rd.date rd.time = false →
      rescheduleAppointment doctors store appointmentId userId userRole rd
        = .error .doctorNotAvailableAtNewTime) := by
  have haccb : (userRole != Role.admin && appt.userId != userId) = false := by
    rcases hacc with h | h <;> simp [h]
  constructor
  · intro hconf
    simp only [rescheduleAppointment, hfind, hdoc, haccb, hstatus, hconf]
    simp
  · intro hconf hunavail
    simp only [rescheduleAppointment, hfind, hdoc, haccb, hstatus, hconf, hunavail]
    simp

theorem C8_conflict_checked_before_availability_witness :
    (((hasConflict [exApptMon, exApptTue] exApptMon.doctorId 5 ⟨10, 0⟩
          (some 1)).isSome = true →
      rescheduleAppointment [exDoctor] [exApptMon, exApptTue] 1 7 .user
          { date := 5, time := ⟨10, 0⟩, reason := none }
        = .error .newTimeSlotAlreadyBooked) ∧
    (hasConflict [exApptMon, exApptTue] exApptMon.doctorId 5 ⟨10, 0⟩ (some 1)
        = none →
      isDoctorAvailable exDoctor 5 ⟨10, 0⟩ = false →
      rescheduleAppointment [exDoctor] [exApptMon, exApptTue] 1 7 .user
          { date := 5, time := ⟨10, 0⟩, reason := none }
        = .error .doctorNotAvailableAtNewTime)) :=
  C8_conflict_checked_before_availability [exDoctor] [exApptMon, exApptTue] 1 7
    .user { date := 5, time := ⟨10, 0⟩, reason := none } exApptMon exDoctor
    (by rfl) (by rfl) (Or.inr rfl) (by rfl)

/-- C9 (implicit): the status-update path enforces no cancellation
window — for a pending or confirmed appointment it cancels successfully
at any current time, even when the appointment is less than 24 hours
away or already in the past, while `cancelAppointment` at the same time
rejects with the cannot-cancel error, so the 24-hour protection can be
bypassed through the status-update operation. -/
theorem C9_status_update_bypasses_window (store : List Appointment)
    (appointmentId userId : Nat) (sd : StatusData) (r : Option String) (now : Int)
    (appt : Appointment)
    (hfind : store.find? (fun x => x.id == appointmentId) = some appt)
    (hactive : isActiveStatus appt.status = true)
    (hcancel : sd.status = .cancelled)
    (hlate : appointmentDateTime appt - now < 24 * 60) :
    (∃ a store2, updateAppointmentStatus store appointmentId sd now = .ok (a, store2) ∧
      a.status = .cancelled) ∧
    cancelAppointment store appointmentId userId .admin r now
      = .error .cannotBeCancelled := by
  constructor
  · have hvalid : isValidStatusTransition appt.status sd.status = true := by
      rw [hcancel]
      revert hactive
      cases appt.status <;> decide
    simp only [updateAppointmentStatus, hfind, hvalid, Bool.not_true,
      Bool.false_eq_true, if_false]
    exact ⟨_, _, rfl, by simp [hcancel]⟩
  · have hcan : canBeCancelled appt now = false := by
      unfold canBeCancelled
      simp only [Bool.and_eq_false_iff, decide_eq_true_eq]
      right
      simp only [decide_eq_false_iff_not]
      omega
    simp only [cancelAppointment, hfind, hcan]
    simp

theorem C9_status_update_bypasses_window_witness :
    ((∃ a store2, updateAppointmentStatus [exApptMon] 1
        { status := .cancelled, cancellationReason := some "emergency",
          cancelledBy := some "user" } 6360 = .ok (a, store2) ∧
      a.status = .cancelled) ∧
    cancelAppointment [exApptMon] 1 7 .admin (some "emergency") 6360
      = .error .cannotBeCancelled) :=
  C9_status_update_bypasses_window [exApptMon] 1 7
    { status := .cancelled, cancellationReason := some "emergency",
      cancelledBy := some "user" } (some "emergency") 6360 exApptMon
    (by rfl) (by rfl) rfl (by decide)

/-- C10 (implicit): `rescheduleAppointment` never inspects the doctor's
`isActive` flag — rescheduling a pending/confirmed appointment of a
deactivated doctor to a conflict-free slot covered by the stored
availability succeeds, while `bookAppointment` rejects any booking with
that same doctor with the doctor-unavailable error. -/
theorem C10_reschedule_ignores_inactive (doctors : List Doctor)
    (store : List Appointment) (appointmentId userId : Nat) (userRole : Role)
    (rd : RescheduleData) (appt : Appointment) (doctor : Doctor)
    (hfind : store.find? (fun x => x.id == appointmentId) = some appt)
    (hdoc : doctors.find? (fun d => d.id == appt.doctorId) = some doctor)
    (hinactive : doctor.isActive = false)
    (hacc : userRole = .admin ∨ appt.userId = userId)
    (hstatus : isActiveStatus appt.status = true)
    (hconf : hasConflict store appt.doctorId rd.date rd.time (some appointmentId)
      = none)
    (havail : isDoctorAvailable doctor rd.date rd.time = true) :
    (∃ a store2,
      rescheduleAppointment doctors store appointmentId userId userRole rd
        = .ok (a, store2) ∧ a.date = rd.date ∧ a.time = rd.time) ∧
    (∀ (store3 : List Appointment) (newId uid : Nat) (bd : BookData),
      bd.doctorId = appt.doctorId →
      bookAppointment doctors store3 newId uid bd = .error .doctorNotAvailable) := by
  have haccb : (userRole != Role.admin && appt.userId != userId) = false := by
    rcases hacc with h | h <;> simp [h]
  constructor
  · simp only [rescheduleAppointment, hfind, hdoc, haccb, hstatus, hconf, havail]
    simp only [Option.isSome_none, Bool.false_eq_true, if_false, Bool.not_true]
    refine ⟨_, _, rfl, ?_, ?_⟩
    · rfl
    · rfl
  · intro store3 newId uid bd hbd
    simp only [bookAppointment, hbd, hdoc, hinactive]
    simp

theorem C10_reschedule_ignores_inactive_witness :
    ((∃ a store2,
      rescheduleAppointment [exInactiveDoctor] [exApptMon] 1 7 .user
          { date := 4, time := ⟨11, 0⟩, reason := none }
        = .ok (a, store2) ∧ a.date = 4 ∧ a.time = ⟨11, 0⟩) ∧
    (∀ (store3 : List Appointment) (newId uid : Nat) (bd : BookData),
      bd.doctorId = exApptMon.doctorId →
      bookAppointment [exInactiveDoctor] store3 newId uid bd
        = .error .doctorNotAvailable)) :=
  C10_reschedule_ignores_inactive [exInactiveDoctor] [exApptMon] 1 7 .user
    { date := 4, time := ⟨11, 0⟩, reason := none } exApptMon exInactiveDoctor
    (by rfl) (by rfl) (by rfl) (Or.inr rfl) (by rfl) (by rfl) (by rfl)
